import Mathlib

/-!
Verification development for the ARKane wallet: a shallow embedding of the
frontend request handlers (send modal, wallet page, restore form) and of the
backend Wallet Registry & Orchestration Layer described by the design
document (the backend sources are not available, so those components are
modelled from the spec, as marked on each definition).
-/

namespace ARKane

/-- JavaScript truthiness of a string: exactly the empty string is falsy. -/
def jsTruthy (s : String) : Bool := !(s == "")

/-- JavaScript truthiness of an optional string field: a missing or null
field is falsy, a present string is truthy unless empty. -/
def jsTruthyOpt : Option String → Bool
  | none => false
  | some s => jsTruthy s

/-- Drop leading whitespace characters from a character list. -/
def dropLeadingWs : List Char → List Char
  | [] => []
  | c :: cs => if c.isWhitespace then dropLeadingWs cs else c :: cs

/-- JavaScript String.prototype.trim: remove leading and trailing
whitespace (executable model of the .trim() calls in the frontend). -/
def jsTrim (s : String) : String :=
  ⟨(dropLeadingWs (dropLeadingWs s.data).reverse).reverse⟩

/-- An HTTP request the frontend can issue against the backend, one
constructor per endpoint.  For the send endpoint the amount is kept as the
raw input string; the JavaScript serializes Number.parseFloat of it, which
no property here inspects. -/
inductive FrontendRequest
  | createWallet
  | getAddress (walletId : String)
  | getBalance (walletId : String)
  | faucet (onchainAddress : String) (amount : ℚ)
  | settleFunds (walletId : String)
  | sendToArkAddress (walletId : String) (address : String) (amountField : String)
  deriving DecidableEq, Repr

/-- The fixed faucet amount 0.0001 BTC hard-coded in handleFaucet of
src/frontend/components/wallet-page.tsx (a JSON decimal literal, modelled
as the exact rational it denotes). -/
def faucetAmount : ℚ := 1 / 10000

/-- Shallow embedding of handleFaucet from
src/frontend/components/wallet-page.tsx: if the stored onchain address is
falsy (null or empty) the handler returns without issuing any request;
otherwise it posts the stored address with the fixed amount 0.0001 to the
faucet endpoint.  The result is the list of HTTP requests issued. -/
def handleFaucet (onchainAddress : Option String) : List FrontendRequest :=
  match onchainAddress with
  | none => []
  | some a => if jsTruthy a then [FrontendRequest.faucet a faucetAmount] else []

/-- The send dialog's input state in src/frontend/components/send-modal.tsx:
the two text fields and the selected payment type radio value. -/
structure SendModalState where
  address : String
  amount : String
  paymentType : String
  deriving DecidableEq, Repr

/-- The JSON body returned by the send endpoint, as read by the dialog:
an optional txid and an optional error message. -/
structure SendResponseData where
  txid : Option String
  error : Option String
  deriving DecidableEq, Repr

/-- Outcome of the fetch to the send endpoint as observed by the dialog:
either the promise chain threw (network failure or JSON parse failure), or
a parsed response body was obtained. -/
inductive FetchOutcome
  | threw
  | responded (data : SendResponseData)
  deriving DecidableEq, Repr

/-- Observable effects of one run of handleSend: the HTTP requests issued,
the resulting values of the two input fields, and whether the dialog was
closed and the balance refresh callback invoked. -/
structure SendEffects where
  requests : List FrontendRequest
  address : String
  amount : String
  closed : Bool
  refreshed : Bool
  deriving DecidableEq, Repr

/-- Shallow embedding of handleSend from
src/frontend/components/send-modal.tsx.  If either trimmed input is empty
the handler returns before any network call.  For the offchain payment type
it posts to the send endpoint; a response with a truthy txid leads to
onSuccess, onClose and clearing both fields, anything else throws into the
catch block which leaves the fields unchanged.  The onchain payment type is
a placeholder: it issues no request, waits, and then also runs the shared
success tail that clears both fields. -/
def handleSend (walletId : String) (st : SendModalState) (fetchResult : FetchOutcome) :
    SendEffects :=
  if jsTrim st.address == "" || jsTrim st.amount == "" then
    ⟨[], st.address, st.amount, false, false⟩
  else if st.paymentType == "offchain" then
    let req := FrontendRequest.sendToArkAddress walletId st.address st.amount
    match fetchResult with
    | FetchOutcome.threw => ⟨[req], st.address, st.amount, false, false⟩
    | FetchOutcome.responded data =>
      if jsTruthyOpt data.txid then ⟨[req], "", "", true, true⟩
      else ⟨[req], st.address, st.amount, false, false⟩
  else
    ⟨[], "", "", true, true⟩

/-- Modelled from the spec: the error taxonomy of §7 for the backend
Wallet Registry & Orchestration Layer, whose Rust sources are not part of
the available tree. -/
inductive WalletError
  | NotFound
  | Busy
  | Timeout
  | AdapterUnavailable
  | FaucetUnavailable
  | InsufficientFunds
  | InvalidAddress
  | InvalidAmount
  | SettlementFailed
  | SendFailed
  | MalformedBalance
  | DuplicateId
  | AdapterInitFailed
  | InvalidWalletId
  | NothingToSettle
  deriving DecidableEq, Repr

/-- Offchain domain sub-balances in base units (satoshis). -/
structure OffchainBalance where
  spendable : Int
  expired : Int
  deriving DecidableEq, Repr

/-- Boarding (onchain) domain sub-balances in base units (satoshis). -/
structure BoardingBalance where
  spendable : Int
  expired : Int
  pending : Int
  deriving DecidableEq, Repr

/-- Modelled from the spec: the aggregated Balance view of §3.  It holds
only the two domain balances; the total spendable amount deliberately has
no field here and is recomputed by totalSpendable. -/
structure Balance where
  offchain : OffchainBalance
  boarding : BoardingBalance
  deriving DecidableEq, Repr

/-- The derived total spendable amount, recomputed from the two domains on
every use; it is never stored. -/
def totalSpendable (b : Balance) : Int :=
  b.offchain.spendable + b.boarding.spendable

/-- Raw domain amounts as reported by the Protocol Client Adapter's
queryBalance, in base units; kept as integers so that a malformed negative
report can be rejected. -/
structure RawBalanceReport where
  offchainSpendable : Int
  offchainExpired : Int
  boardingSpendable : Int
  boardingExpired : Int
  boardingPending : Int
  deriving DecidableEq, Repr

/-- Modelled from the spec: the Balance Aggregator of §4.3, a pure function
from the adapter's raw domain amounts to the unified Balance view; it fails
closed with MalformedBalance if any reported amount is negative. -/
def aggregateBalance (r : RawBalanceReport) : Except WalletError Balance :=
  if r.offchainSpendable < 0 ∨ r.offchainExpired < 0 ∨ r.boardingSpendable < 0 ∨
      r.boardingExpired < 0 ∨ r.boardingPending < 0 then
    Except.error WalletError.MalformedBalance
  else
    Except.ok
      ⟨⟨r.offchainSpendable, r.offchainExpired⟩,
        ⟨r.boardingSpendable, r.boardingExpired, r.boardingPending⟩⟩

/-- Modelled from the spec: a WalletSession of §3 — identifier, opaque
protocol handle, the two cached addresses, and the advisory cached
balance. -/
structure WalletSession where
  walletId : String
  protocolHandle : String
  onchainAddress : String
  offchainAddress : String
  lastKnownBalance : Option Balance
  deriving DecidableEq, Repr

/-- Modelled from the spec: the Wallet Store of §4.1, the registry mapping
wallet identifiers to sessions. -/
abbrev WalletStore := List WalletSession

/-- Look up the session registered under a wallet identifier. -/
def findSession : WalletStore → String → Option WalletSession
  | [], _ => none
  | s :: rest, k => if s.walletId = k then some s else findSession rest k

/-- Modelled from the spec: the store's insert operation, which fails with
DuplicateId if the walletId is already present and never overwrites. -/
def storeInsert (st : WalletStore) (s : WalletSession) : Except WalletError WalletStore :=
  if (findSession st s.walletId).isSome then Except.error WalletError.DuplicateId
  else Except.ok (s :: st)

/-- Modelled from the spec: the store's remove operation (registry
eviction). -/
def storeRemove (st : WalletStore) (k : String) : WalletStore :=
  st.filter (fun s => s.walletId != k)

/-- Registry states reachable from the empty registry through successful
inserts and removals. -/
inductive StoreReachable : WalletStore → Prop
  | empty : StoreReachable []
  | insert {st st' : WalletStore} {s : WalletSession} :
      StoreReachable st → storeInsert st s = Except.ok st' → StoreReachable st'
  | remove {st : WalletStore} (k : String) :
      StoreReachable st → StoreReachable (storeRemove st k)

/-- The registry invariant: each walletId occurs at most once. -/
def StoreUnique (st : WalletStore) : Prop :=
  (st.map (fun s => s.walletId)).Nodup

/-- Modelled from the spec: getBalance of §4.4 — locate the session, query
the adapter (whose report is the parameter r) and aggregate. -/
def getBalance (st : WalletStore) (k : String) (r : RawBalanceReport) :
    Except WalletError Balance :=
  match findSession st k with
  | none => Except.error WalletError.NotFound
  | some _ => aggregateBalance r

/-- Modelled from the spec: the adapter's restoreHandle, reconstructing the
opaque protocol handle deterministically from the wallet identifier alone
(the frontend restores a wallet with nothing but its identifier). -/
def restoreHandle (walletId : String) : String :=
  "handle:" ++ walletId

/-- Modelled from the spec: the adapter's deriveAddresses — address
derivation is deterministic per protocol handle. -/
def deriveAddresses (handle : String) : String × String :=
  ("onchain:" ++ handle, "ark:" ++ handle)

/-- Modelled from the spec: createWallet of §4.4 — obtain a handle for the
freshly generated identifier, derive and cache the addresses, and insert
the session into the registry. -/
def createWallet (st : WalletStore) (freshId : String) :
    Except WalletError (WalletStore × String) :=
  match storeInsert st
      ⟨freshId, restoreHandle freshId, (deriveAddresses (restoreHandle freshId)).1,
        (deriveAddresses (restoreHandle freshId)).2, none⟩ with
  | Except.ok st' => Except.ok (st', freshId)
  | Except.error e => Except.error e

/-- Modelled from the spec: getAddresses of §4.4 — return the addresses
cached in the session, or NotFound. -/
def getAddresses (st : WalletStore) (k : String) :
    Except WalletError (String × String) :=
  match findSession st k with
  | some s => Except.ok (s.onchainAddress, s.offchainAddress)
  | none => Except.error WalletError.NotFound

/-- Modelled from the spec: restoreWallet of §4.4 — look the session up, or
reconstruct the handle from the identifier and derive the addresses. -/
def restoreWallet (st : WalletStore) (k : String) :
    Except WalletError (String × String) :=
  match findSession st k with
  | some s => Except.ok (s.onchainAddress, s.offchainAddress)
  | none => Except.ok (deriveAddresses (restoreHandle k))

/-- Result of a sendToAddress run: the outcome surfaced to the caller and
the list of sendOffchain invocations that reached the adapter. -/
structure SendOutcome where
  outcome : Except WalletError String
  adapterSends : List (String × Int)
  deriving Repr

/-- Modelled from the spec: sendToAddress of §4.4.  destValid is the
outcome of the cheap address validation ordered before the lock;
spendableAtLock is the offchain spendable balance re-read after the
exclusive lock is acquired.  The amount must be strictly positive and at
most spendableAtLock, otherwise the operation fails with InsufficientFunds
and no adapter send call is issued. -/
def sendToAddress (destValid : Bool) (spendableAtLock : Int) (dest : String)
    (amount : Int) (txid : String) : SendOutcome :=
  if destValid = false then ⟨Except.error WalletError.InvalidAddress, []⟩
  else if amount ≤ 0 ∨ spendableAtLock < amount then
    ⟨Except.error WalletError.InsufficientFunds, []⟩
  else ⟨Except.ok txid, [(dest, amount)]⟩

/-- Result of a mutating operation driven under the per-wallet lock: the
outcome, the session state afterwards, and whether the lock is still held
when the operation returns. -/
structure MutOpResult where
  outcome : Except WalletError String
  session : WalletSession
  lockHeldAtEnd : Bool
  deriving Repr

/-- Modelled from the spec: the bounded-deadline wrapper of §5 around an
external adapter call.  elapsed is the time the adapter call took and
result its all-or-nothing effect (updated session and receipt) when it did
complete.  If the deadline is exceeded the operation fails with Timeout,
the lock is released, and the session is left exactly as it was before the
call; otherwise the adapter's result is committed and the lock is likewise
released on exit. -/
def runWithDeadline (sess : WalletSession) (deadline elapsed : Nat)
    (result : Except WalletError (WalletSession × String)) : MutOpResult :=
  if deadline < elapsed then
    ⟨Except.error WalletError.Timeout, sess, false⟩
  else
    match result with
    | Except.ok (s', receipt) => ⟨Except.ok receipt, s', false⟩
    | Except.error e => ⟨Except.error e, sess, false⟩

/-- Phase of one in-flight mutating operation: not yet started, holding the
per-wallet lock for the full external-call sequence, or finished. -/
inductive OpPhase
  | idle
  | locked
  | done
  deriving DecidableEq, Repr

/-- Modelled from the spec: the state of the Wallet Session Lock Manager of
§4.2 together with the phases of the in-flight mutating operations
(operation indices are natural numbers). -/
structure LockSys where
  lockHeld : String → Bool
  phase : Nat → OpPhase

/-- Initial lock-manager state: no lock held, every operation idle. -/
def LockSys.init : LockSys :=
  ⟨fun _ => false, fun _ => OpPhase.idle⟩

/-- Modelled from the spec: the transitions of the lock manager.  An
operation acquires the exclusive lock of its wallet only when that lock is
free, holds it across its whole adapter call, and releases it when done.
wallet assigns to each operation index the wallet identifier it targets. -/
inductive LockStep (wallet : Nat → String) : LockSys → LockSys → Prop
  | acquire (i : Nat) (s : LockSys)
      (hidle : s.phase i = OpPhase.idle)
      (hfree : s.lockHeld (wallet i) = false) :
      LockStep wallet s
        ⟨Function.update s.lockHeld (wallet i) true,
          Function.update s.phase i OpPhase.locked⟩
  | release (i : Nat) (s : LockSys)
      (hlocked : s.phase i = OpPhase.locked) :
      LockStep wallet s
        ⟨Function.update s.lockHeld (wallet i) false,
          Function.update s.phase i OpPhase.done⟩

/-- Lock-manager states reachable from the initial state. -/
inductive LockReachable (wallet : Nat → String) : LockSys → Prop
  | init : LockReachable wallet LockSys.init
  | step {s s' : LockSys} :
      LockReachable wallet s → LockStep wallet s s' → LockReachable wallet s'

/-- The lock-manager invariant: an operation in its critical section holds
its wallet's lock, and two distinct operations are never simultaneously in
the critical section of the same wallet. -/
def LockInv (wallet : Nat → String) (s : LockSys) : Prop :=
  (∀ i, s.phase i = OpPhase.locked → s.lockHeld (wallet i) = true) ∧
    (∀ i j, s.phase i = OpPhase.locked → s.phase j = OpPhase.locked →
      wallet i = wallet j → i = j)

/-- Modelled from the spec: satoshis per BTC, the scale between the decimal
display unit of the HTTP interface and the integer base unit. -/
def satsPerBtc : ℚ := 100000000

/-- Modelled from the spec: the boundary conversion from a decimal display
amount (BTC) to integer base units (satoshis). -/
def btcToBaseUnits (q : ℚ) : Int :=
  ⌊q * satsPerBtc⌋

/-- Modelled from the spec: the boundary conversion from integer base units
back to the decimal display unit. -/
def baseUnitsToBtc (n : Int) : ℚ :=
  (n : ℚ) / satsPerBtc

/-- A concrete session used by the closed witnesses. -/
def demoSession : WalletSession :=
  ⟨"w1", "handle:w1", "onchain:handle:w1", "ark:handle:w1", none⟩

/-- An all-zero adapter balance report, used by the closed witnesses. -/
def zeroReport : RawBalanceReport :=
  ⟨0, 0, 0, 0, 0⟩

end ARKane

namespace ARKane

/-- Sessions a lookup misses are exactly those whose walletId differs from
the key. -/
theorem findSession_eq_none_forall {st : WalletStore} {k : String}
    (h : findSession st k = none) : ∀ s ∈ st, s.walletId ≠ k := by
  induction st with
  | nil =>
    intro s hs
    exact absurd hs (List.not_mem_nil s)
  | cons a t ih =>
    intro s hs
    simp only [findSession] at h
    by_cases hk : a.walletId = k
    · rw [if_pos hk] at h
      exact Option.noConfusion h
    · rw [if_neg hk] at h
      rcases List.mem_cons.mp hs with rfl | hs'
      · exact hk
      · exact ih h s hs'

/-- The registry invariant holds at every reachable store state. -/
theorem storeUnique_of_reachable {st : WalletStore} (h : StoreReachable st) :
    StoreUnique st := by
  induction h with
  | empty => exact List.nodup_nil
  | @insert st st' s _ hins ih =>
    unfold storeInsert at hins
    by_cases hp : (findSession st s.walletId).isSome
    · rw [if_pos hp] at hins
      exact Except.noConfusion hins
    · rw [if_neg hp] at hins
      injection hins with hins
      subst hins
      refine List.nodup_cons.mpr ⟨?_, ih⟩
      intro hmem
      rcases List.mem_map.mp hmem with ⟨t, htmem, htid⟩
      exact findSession_eq_none_forall (Option.not_isSome_iff_eq_none.mp hp) t htmem htid
  | @remove st k _ ih =>
    exact List.Nodup.sublist (List.Sublist.map _ (List.filter_sublist st)) ih

/-- The lock-manager invariant holds at every reachable state. -/
theorem lockInv_of_reachable {wallet : Nat → String} {s : LockSys}
    (h : LockReachable wallet s) : LockInv wallet s := by
  induction h with
  | init =>
    constructor
    · intro i hi
      exact OpPhase.noConfusion hi
    · intro i j hi _ _
      exact absurd hi (fun hc => OpPhase.noConfusion hc)
  | step _ hstep ih =>
    cases hstep with
    | acquire m t hidle hfree =>
      constructor
      · intro k hk
        dsimp only at hk ⊢
        by_cases hki : k = m
        · subst hki
          rw [Function.update_same]
        · rw [Function.update_noteq hki] at hk
          have h1 := ih.1 k hk
          by_cases hw : wallet k = wallet m
          · rw [hw, Function.update_same]
          · rw [Function.update_noteq hw]
            exact h1
      · intro k l hk hl hw
        dsimp only at hk hl
        by_cases hki : k = m
        · subst hki
          by_cases hli : l = k
          · rw [hli]
          · rw [Function.update_noteq hli] at hl
            have hll := ih.1 l hl
            rw [← hw, hfree] at hll
            exact Bool.noConfusion hll
        · rw [Function.update_noteq hki] at hk
          by_cases hli : l = m
          · subst hli
            have hkk := ih.1 k hk
            rw [hw, hfree] at hkk
            exact Bool.noConfusion hkk
          · rw [Function.update_noteq hli] at hl
            exact ih.2 k l hk hl hw
    | release m t hlocked =>
      constructor
      · intro k hk
        dsimp only at hk ⊢
        by_cases hki : k = m
        · subst hki
          rw [Function.update_same] at hk
          exact OpPhase.noConfusion hk
        · rw [Function.update_noteq hki] at hk
          have h1 := ih.1 k hk
          by_cases hw : wallet k = wallet m
          · exact absurd (ih.2 k m hk hlocked hw) hki
          · rw [Function.update_noteq hw]
            exact h1
      · intro k l hk hl hw
        dsimp only at hk hl
        by_cases hki : k = m
        · subst hki
          rw [Function.update_same] at hk
          exact OpPhase.noConfusion hk
        · by_cases hli : l = m
          · subst hli
            rw [Function.update_same] at hl
            exact OpPhase.noConfusion hl
          · rw [Function.update_noteq hki] at hk
            rw [Function.update_noteq hli] at hl
            exact ih.2 k l hk hl hw

/-- Claim C1: at every reachable lock-manager state, two distinct in-flight
mutating operations on the same wallet identifier are never simultaneously
inside their exclusive section (so their adapter calls never overlap), and
an operation on a wallet whose own lock is free can always acquire it —
regardless of which locks unrelated wallets hold. -/
theorem lock_mutual_exclusion_and_isolation (wallet : Nat → String) (s : LockSys)
    (h : LockReachable wallet s) :
    (∀ i j, i ≠ j → wallet i = wallet j →
        ¬(s.phase i = OpPhase.locked ∧ s.phase j = OpPhase.locked)) ∧
      (∀ i, s.phase i = OpPhase.idle → s.lockHeld (wallet i) = false →
        ∃ s', LockStep wallet s s' ∧ s'.phase i = OpPhase.locked) := by
  have hinv := lockInv_of_reachable h
  constructor
  · intro i j hij hw hc
    exact hij (hinv.2 i j hc.1 hc.2 hw)
  · intro i hidle hfree
    exact ⟨_, LockStep.acquire i s hidle hfree, Function.update_same i OpPhase.locked s.phase⟩

/-- Witness for C1: from the initial state, operation 0 on wallet w1 can
enter its exclusive section. -/
theorem lock_mutual_exclusion_and_isolation_witness :
    ∃ s', LockStep (fun _ => "w1") LockSys.init s' ∧ s'.phase 0 = OpPhase.locked :=
  (lock_mutual_exclusion_and_isolation (fun _ => "w1") LockSys.init
      LockReachable.init).2 0 rfl rfl

/-- Claim C2: every balance snapshot successfully returned by getBalance
has total spendable equal to offchain.spendable plus boarding.spendable
(totalSpendable is recomputed from the two domains, the Balance structure
stores no total), and that total is never negative. -/
theorem getBalance_total_spendable (st : WalletStore) (k : String)
    (r : RawBalanceReport) (b : Balance) (h : getBalance st k r = Except.ok b) :
    totalSpendable b = b.offchain.spendable + b.boarding.spendable ∧
      0 ≤ totalSpendable b := by
  unfold getBalance at h
  rcases hfs : findSession st k with _ | s
  · simp only [hfs] at h
    exact Except.noConfusion h
  · simp only [hfs] at h
    unfold aggregateBalance at h
    split at h
    · exact Except.noConfusion h
    · rename_i hneg
      injection h with h
      subst h
      push_neg at hneg
      refine ⟨rfl, ?_⟩
      simp only [totalSpendable]
      omega

/-- Witness for C2: the all-zero report aggregates to a balance whose total
spendable is the sum of the domains and is non-negative. -/
theorem getBalance_total_spendable_witness :
    totalSpendable ⟨⟨0, 0⟩, ⟨0, 0, 0⟩⟩ =
        (⟨⟨0, 0⟩, ⟨0, 0, 0⟩⟩ : Balance).offchain.spendable +
          (⟨⟨0, 0⟩, ⟨0, 0, 0⟩⟩ : Balance).boarding.spendable ∧
      0 ≤ totalSpendable ⟨⟨0, 0⟩, ⟨0, 0, 0⟩⟩ :=
  getBalance_total_spendable [demoSession] "w1" zeroReport ⟨⟨0, 0⟩, ⟨0, 0, 0⟩⟩ rfl

/-- Claim C3: a sendToAddress request whose amount is zero, negative, or
strictly greater than the offchain spendable balance re-read after the
exclusive lock is acquired fails with InsufficientFunds, and no send call
reaches the adapter. -/
theorem sendToAddress_insufficient_funds (v : Bool) (sp : Int) (dest : String)
    (amt : Int) (tx : String) (hv : v = true) (h : amt ≤ 0 ∨ sp < amt) :
    (sendToAddress v sp dest amt tx).outcome =
        Except.error WalletError.InsufficientFunds ∧
      (sendToAddress v sp dest amt tx).adapterSends = [] := by
  subst hv
  unfold sendToAddress
  rw [if_neg (fun hc => Bool.noConfusion hc), if_pos h]
  exact ⟨rfl, rfl⟩

/-- Witness for C3: a zero-amount request against a balance of 5 base units
fails with InsufficientFunds and issues no adapter send. -/
theorem sendToAddress_insufficient_funds_witness :
    (sendToAddress true 5 "ark1dest" 0 "tx").outcome =
        Except.error WalletError.InsufficientFunds ∧
      (sendToAddress true 5 "ark1dest" 0 "tx").adapterSends = [] :=
  sendToAddress_insufficient_funds true 5 "ark1dest" 0 "tx" rfl (Or.inl (by decide))

/-- Claim C4: when the external adapter call exceeds its bounded deadline,
the operation fails with Timeout, the per-wallet lock is released, and the
session is exactly its state from before the call — no partial mutation is
committed. -/
theorem timeout_preserves_state_releases_lock (sess : WalletSession)
    (deadline elapsed : Nat) (result : Except WalletError (WalletSession × String))
    (h : deadline < elapsed) :
    (runWithDeadline sess deadline elapsed result).outcome =
        Except.error WalletError.Timeout ∧
      (runWithDeadline sess deadline elapsed result).session = sess ∧
      (runWithDeadline sess deadline elapsed result).lockHeldAtEnd = false := by
  unfold runWithDeadline
  rw [if_pos h]
  exact ⟨rfl, rfl, rfl⟩

/-- Witness for C4: an adapter call taking 2 time units against a deadline
of 1 times out, leaves the session as it was and releases the lock. -/
theorem timeout_preserves_state_releases_lock_witness :
    (runWithDeadline demoSession 1 2 (Except.ok (demoSession, "r"))).outcome =
        Except.error WalletError.Timeout ∧
      (runWithDeadline demoSession 1 2 (Except.ok (demoSession, "r"))).session =
        demoSession ∧
      (runWithDeadline demoSession 1 2 (Except.ok (demoSession, "r"))).lockHeldAtEnd =
        false :=
  timeout_preserves_state_releases_lock demoSession 1 2 (Except.ok (demoSession, "r"))
    (by decide)

/-- Claim C6: after createWallet succeeds, getAddresses on the fresh wallet
identifier returns exactly the address pair restoreWallet returns for that
identifier — both on the updated registry and on a registry without the
session (reconstruction path) — namely the pair derived deterministically
from the identifier's protocol handle. -/
theorem create_getAddresses_restore_agree (st : WalletStore) (freshId : String)
    (st' : WalletStore) (wid : String)
    (h : createWallet st freshId = Except.ok (st', wid)) :
    ∃ a, getAddresses st' wid = Except.ok a ∧ restoreWallet st' wid = Except.ok a ∧
      restoreWallet [] wid = Except.ok a ∧ a = deriveAddresses (restoreHandle wid) := by
  unfold createWallet at h
  rcases hins : storeInsert st
      ⟨freshId, restoreHandle freshId, (deriveAddresses (restoreHandle freshId)).1,
        (deriveAddresses (restoreHandle freshId)).2, none⟩ with e | st''
  · simp only [hins] at h
    exact Except.noConfusion h
  · simp only [hins, Except.ok.injEq, Prod.mk.injEq] at h
    obtain ⟨h1, h2⟩ := h
    subst h1
    subst h2
    unfold storeInsert at hins
    by_cases hp : (findSession st freshId).isSome
    · rw [if_pos hp] at hins
      exact Except.noConfusion hins
    · rw [if_neg hp] at hins
      injection hins with hins
      subst hins
      refine ⟨deriveAddresses (restoreHandle freshId), ?_, ?_, rfl, rfl⟩
      · simp [getAddresses, findSession]
      · simp [restoreWallet, findSession]

/-- Witness for C6: creating wallet w1 in the empty registry and reading
its addresses agrees with what restoreWallet returns for w1. -/
theorem create_getAddresses_restore_agree_witness :
    ∃ a, getAddresses [demoSession] "w1" = Except.ok a ∧
      restoreWallet [demoSession] "w1" = Except.ok a ∧
      restoreWallet [] "w1" = Except.ok a ∧
      a = deriveAddresses (restoreHandle "w1") :=
  create_getAddresses_restore_agree [] "w1" [demoSession] "w1" rfl

/-- Claim C7: at every reachable registry state each walletId maps to at
most one session; inserting a session whose walletId is present fails with
DuplicateId, and a successful insert happens only when the identifier was
absent — so an existing session is never silently overwritten, and every
other binding is untouched. -/
theorem registry_walletId_unique (st : WalletStore) (h : StoreReachable st) :
    StoreUnique st ∧
      (∀ s : WalletSession, (findSession st s.walletId).isSome = true →
        storeInsert st s = Except.error WalletError.DuplicateId) ∧
      (∀ (s : WalletSession) (st' : WalletStore), storeInsert st s = Except.ok st' →
        findSession st s.walletId = none ∧ findSession st' s.walletId = some s ∧
          ∀ k, k ≠ s.walletId → findSession st' k = findSession st k) := by
  refine ⟨storeUnique_of_reachable h, ?_, ?_⟩
  · intro s hs
    unfold storeInsert
    rw [if_pos hs]
  · intro s st' hins
    unfold storeInsert at hins
    by_cases hp : (findSession st s.walletId).isSome
    · rw [if_pos hp] at hins
      exact Except.noConfusion hins
    · rw [if_neg hp] at hins
      injection hins with hins
      subst hins
      refine ⟨Option.not_isSome_iff_eq_none.mp hp, ?_, ?_⟩
      · simp [findSession]
      · intro k hk
        simp only [findSession]
        rw [if_neg (fun he => hk he.symm)]

/-- Witness for C7: inserting a session with the already-registered
identifier w1 fails with DuplicateId. -/
theorem registry_walletId_unique_witness :
    storeInsert [demoSession] demoSession = Except.error WalletError.DuplicateId :=
  (registry_walletId_unique [demoSession]
      (StoreReachable.insert StoreReachable.empty rfl)).2.1 demoSession rfl

/-- Claim C5: the boundary conversion between the decimal display unit
(BTC) and integer base units (satoshis) is exact: a round trip loses
nothing beyond the smallest base unit, it is lossless on any amount that is
a whole number of base units, and 0.0001 BTC converts to exactly 10,000
base units. -/
theorem btc_base_unit_conversion_exact (q : ℚ) :
    (baseUnitsToBtc (btcToBaseUnits q) ≤ q ∧
        q - 1 / satsPerBtc < baseUnitsToBtc (btcToBaseUnits q)) ∧
      ((q * satsPerBtc).den = 1 → baseUnitsToBtc (btcToBaseUnits q) = q) ∧
      btcToBaseUnits faucetAmount = 10000 := by
  have hS : (0 : ℚ) < satsPerBtc := by norm_num [satsPerBtc]
  have hS0 : satsPerBtc ≠ 0 := ne_of_gt hS
  refine ⟨⟨?_, ?_⟩, ?_, ?_⟩
  · unfold baseUnitsToBtc btcToBaseUnits
    rw [div_le_iff₀ hS]
    exact Int.floor_le (q * satsPerBtc)
  · unfold baseUnitsToBtc btcToBaseUnits
    rw [lt_div_iff₀ hS, sub_mul, one_div_mul_cancel hS0]
    exact Int.sub_one_lt_floor (q * satsPerBtc)
  · intro hden
    unfold baseUnitsToBtc btcToBaseUnits
    have hnum : ((q * satsPerBtc).num : ℚ) = q * satsPerBtc :=
      (Rat.den_eq_one_iff _).mp hden
    rw [← hnum, Int.floor_intCast, hnum, mul_div_cancel_right₀ _ hS0]
  · unfold btcToBaseUnits
    have he : faucetAmount * satsPerBtc = ((10000 : Int) : ℚ) := by
      norm_num [faucetAmount, satsPerBtc]
    rw [he, Int.floor_intCast]

/-- Witness for C5: 0.0001 BTC is a whole number of base units, and its
round trip through base units is lossless. -/
theorem btc_base_unit_conversion_exact_witness :
    ((1 / 10000 : ℚ) * satsPerBtc).den = 1 ∧
      baseUnitsToBtc (btcToBaseUnits (1 / 10000 : ℚ)) = 1 / 10000 := by
  have hden : ((1 / 10000 : ℚ) * satsPerBtc).den = 1 := by
    have he : (1 / 10000 : ℚ) * satsPerBtc = 10000 := by
      norm_num [satsPerBtc]
    rw [he]
    rfl
  exact ⟨hden, (btc_base_unit_conversion_exact (1 / 10000)).2.1 hden⟩

/-- Claim C8: when the recipient address or the amount is empty or
whitespace-only, handleSend issues no HTTP request to any endpoint: the
empty-input check runs before any network call. -/
theorem handleSend_empty_input_no_request (w : String) (st : SendModalState)
    (f : FetchOutcome) (h : jsTrim st.address = "" ∨ jsTrim st.amount = "") :
    (handleSend w st f).requests = [] := by
  unfold handleSend
  rcases h with h | h <;> simp [h]

/-- Witness for C8: a whitespace-only address with a nonempty amount issues
no request. -/
theorem handleSend_empty_input_no_request_witness :
    (jsTrim " " = "" ∨ jsTrim "1" = "") ∧
      (handleSend "w" ⟨" ", "1", "offchain"⟩ FetchOutcome.threw).requests = [] :=
  ⟨Or.inl (by decide),
    handleSend_empty_input_no_request "w" ⟨" ", "1", "offchain"⟩ FetchOutcome.threw
      (Or.inl (by decide))⟩

/-- Claim C9, counterexample: it is not true that handleSend clears the two
input fields only when the send endpoint's response carries a truthy txid.
With payment type onchain and non-empty inputs, the handler clears both
fields even when the fetch outcome is a thrown error and no response with a
txid exists. -/
theorem handleSend_clear_without_txid_counterexample :
    ¬ (∀ (w : String) (st : SendModalState) (f : FetchOutcome),
        (handleSend w st f).address = "" ∧ (handleSend w st f).amount = "" →
          ∃ d, f = FetchOutcome.responded d ∧ jsTruthyOpt d.txid = true) := by
  intro h
  rcases h "w" ⟨"dest", "2", "onchain"⟩ FetchOutcome.threw (by decide) with ⟨d, hd, _⟩
  exact FetchOutcome.noConfusion hd

/-- Claim C9 as amended: for the offchain payment type with non-empty
inputs, handleSend clears the recipient address and amount exactly when the
send response contains a truthy txid, and on any failure (response lacking a
truthy txid, or a thrown error) both entered values are left unchanged.
(The onchain payment type is a placeholder branch that clears both fields
without issuing any request.) -/
theorem handleSend_offchain_clear_iff (w : String) (st : SendModalState)
    (f : FetchOutcome) (ha : jsTrim st.address ≠ "") (hb : jsTrim st.amount ≠ "")
    (hoff : st.paymentType = "offchain") :
    (((handleSend w st f).address = "" ∧ (handleSend w st f).amount = "") ↔
        ∃ d, f = FetchOutcome.responded d ∧ jsTruthyOpt d.txid = true) ∧
      ((∀ d, f = FetchOutcome.responded d → jsTruthyOpt d.txid = false) →
        (handleSend w st f).address = st.address ∧ (handleSend w st f).amount = st.amount) := by
  have haddr : st.address ≠ "" := by
    intro h
    apply ha
    rw [h]
    rfl
  rcases f with _ | d
  · have e : handleSend w st FetchOutcome.threw =
        ⟨[FrontendRequest.sendToArkAddress w st.address st.amount],
          st.address, st.amount, false, false⟩ := by
      unfold handleSend
      simp [ha, hb, hoff]
    rw [e]
    refine ⟨⟨fun hcl => absurd hcl.1 haddr, ?_⟩, fun _ => ⟨rfl, rfl⟩⟩
    rintro ⟨d, hd, _⟩
    exact FetchOutcome.noConfusion hd
  · cases ht : jsTruthyOpt d.txid with
    | true =>
      have e : handleSend w st (FetchOutcome.responded d) =
          ⟨[FrontendRequest.sendToArkAddress w st.address st.amount],
            "", "", true, true⟩ := by
        unfold handleSend
        simp [ha, hb, hoff, ht]
      rw [e]
      refine ⟨⟨fun _ => ⟨d, rfl, ht⟩, fun _ => ⟨rfl, rfl⟩⟩, ?_⟩
      intro hfail
      have hf := hfail d rfl
      rw [ht] at hf
      exact Bool.noConfusion hf
    | false =>
      have e : handleSend w st (FetchOutcome.responded d) =
          ⟨[FrontendRequest.sendToArkAddress w st.address st.amount],
            st.address, st.amount, false, false⟩ := by
        unfold handleSend
        simp [ha, hb, hoff, ht]
      rw [e]
      refine ⟨⟨fun hcl => absurd hcl.1 haddr, ?_⟩, fun _ => ⟨rfl, rfl⟩⟩
      rintro ⟨d', hd', htx⟩
      cases hd'
      rw [ht] at htx
      exact Bool.noConfusion htx

/-- Witness for the amended C9: with non-empty inputs and a truthy txid in
the response, both fields are cleared. -/
theorem handleSend_offchain_clear_iff_witness :
    (handleSend "w" ⟨"dest", "2", "offchain"⟩
        (FetchOutcome.responded ⟨some "tx", none⟩)).address = "" ∧
      (handleSend "w" ⟨"dest", "2", "offchain"⟩
        (FetchOutcome.responded ⟨some "tx", none⟩)).amount = "" :=
  (handleSend_offchain_clear_iff "w" ⟨"dest", "2", "offchain"⟩
      (FetchOutcome.responded ⟨some "tx", none⟩) (by decide) (by decide) rfl).1.mpr
    ⟨⟨some "tx", none⟩, rfl, by decide⟩

/-- Claim C10: every faucet request issued by handleFaucet posts exactly the
stored onchain address with the fixed amount 0.0001 BTC, and with no stored
onchain address the handler issues no request at all. -/
theorem handleFaucet_exact_request :
    handleFaucet none = [] ∧
      ∀ a r, r ∈ handleFaucet a →
        ∃ s, a = some s ∧ r = FrontendRequest.faucet s faucetAmount := by
  refine ⟨rfl, ?_⟩
  intro a r hr
  cases a with
  | none => simp [handleFaucet] at hr
  | some s =>
    refine ⟨s, rfl, ?_⟩
    cases h : jsTruthy s with
    | false => simp [handleFaucet, h] at hr
    | true =>
      simp [handleFaucet, h] at hr
      exact hr

/-- Witness for C10: a concrete stored address yields exactly the faucet
request for that address and the fixed amount. -/
theorem handleFaucet_exact_request_witness :
    ∃ s, (some "bcrt1q" : Option String) = some s ∧
      FrontendRequest.faucet "bcrt1q" faucetAmount = FrontendRequest.faucet s faucetAmount :=
  handleFaucet_exact_request.2 (some "bcrt1q") (FrontendRequest.faucet "bcrt1q" faucetAmount)
    (by simp [handleFaucet, jsTruthy])

end ARKane
